import Mathlib

/-!
# Cellar export-job orchestrator: a shallow embedding

This file embeds the export job orchestrator of the Cellar repository
(worker/src/services/ExportJob.ts) in Lean 4 and proves the specification
claims about it.

Conventions of the embedding:
* D1 (the relational store) is modelled as an in-memory table of rows;
  the prepared-statement machinery is modelled by an evaluator for the
  exact query shapes `buildFileQuery` can produce.
* R2 (the blob store) existence probes are modelled as a function from
  blob key to a probe outcome (`found` / `absent` / thrown error);
  the `catch` around the probe in the source turns a thrown error into
  the same missing-list bookkeeping as an absent blob.
* JSON (de)serialization of the transient state and of filter parameters
  is modelled as the identity on the structured values.
* Machine integers do not overflow in the relevant ranges (JS numbers
  hold sizes and timestamps exactly); they are modelled as `Nat`.
-/

/-- A value bound into a prepared statement (strings and numbers are the
only kinds the orchestrator ever binds). -/
inductive Param where
  | str (s : String)
  | num (n : Nat)
deriving Repr, DecidableEq

/-- Outcome of an R2 `head` existence probe for a single blob key:
the blob is present, the store reports it absent (`null`), or the call
throws. -/
inductive ProbeResult where
  | found
  | absent
  | err
deriving Repr, DecidableEq

/-- A row of the `storage_files` table (the columns the orchestrator's
query touches). -/
structure DBFile where
  id : String
  user_id : String
  r2_key : String
  filename : String
  size_bytes : Nat
  mime_type : String
  product : String
  category : String
  created_at : String
  deleted_at : Option String
deriving Repr, DecidableEq

/-- A file record as returned by the discovery query (interface
`FileRecord` in the source: the SELECTed columns). -/
structure FileRecord where
  id : String
  r2_key : String
  filename : String
  size_bytes : Nat
  mime_type : String
  product : String
  category : String
  created_at : String
deriving Repr, DecidableEq

/-- Projection of a table row onto the SELECTed columns. -/
def DBFile.toFileRecord (r : DBFile) : FileRecord :=
  { id := r.id
    r2_key := r.r2_key
    filename := r.filename
    size_bytes := r.size_bytes
    mime_type := r.mime_type
    product := r.product
    category := r.category
    created_at := r.created_at }

/-- A processed-file descriptor accumulated in the transient state
(the element type of `ExportState.processedFiles` in the source). -/
structure ProcessedFile where
  id : String
  r2_key : String
  filename : String
  size_bytes : Nat
  product : String
  category : String
deriving Repr, DecidableEq

/-- The transient export state persisted in Durable Object storage
between alarm invocations (interface `ExportState` in the source).
`exportType` is kept as a plain string: `startExport` stores the raw
`export_type` column with only a type-level cast, so unrecognized tags
reach `buildFileQuery` unchanged.  `filterParams` models the parsed
JSON object as an association list. -/
structure ExportState where
  exportId : String
  userId : String
  exportType : String
  filterParams : Option (List (String × String))
  currentOffset : Nat
  processedFiles : List ProcessedFile
  totalSize : Nat
  missingFiles : List String
  r2Key : String
  createdAt : String
deriving Repr, DecidableEq

/-- Modelled from the spec: `ZIP_CONFIG.CHUNK_FILE_LIMIT` lives in the
`zipStream` module, which is absent from the sources; the spec and the
source's own comment ("Fetches up to 100 files or 50MB of data") give the
page limit as 100 files. -/
def CHUNK_FILE_LIMIT : Nat := 100

/-- Modelled from the spec: `ZIP_CONFIG.CHUNK_SIZE_BYTES` lives in the
`zipStream` module, which is absent from the sources; the spec and the
source's own comment give the per-chunk size threshold as 50MB. -/
def CHUNK_SIZE_BYTES : Nat := 50 * 1024 * 1024

/-- First value bound for a key in a string-to-string record
(`filters["category"]` access on the parsed JSON object). -/
def lookupParam (m : List (String × String)) (k : String) : Option String :=
  (m.find? (fun p => p.1 == k)).map (fun p => p.2)

/-- JS truthiness of `filters?.category`: an absent mapping, an absent
key, and an empty-string value are all falsy, so all three leave the
category restriction out of the query. -/
def categoryTruthy (filters : Option (List (String × String))) : Option String :=
  match filters.bind (fun m => lookupParam m "category") with
  | some c => if c = "" then none else some c
  | none => none

/-- Lexicographic comparison of character lists by code point. -/
def charListLe : List Char → List Char → Bool
  | [], _ => true
  | _ :: _, [] => false
  | a :: as, b :: bs =>
    if a.val < b.val then true
    else if b.val < a.val then false
    else charListLe as bs

/-- Lexicographic comparison of strings by code point, modelling the
store's binary collation for ORDER BY on the created_at column. -/
def strLe (a b : String) : Bool :=
  charListLe a.data b.data

/-- The fixed base of the discovery query (the template literal
`baseQuery` in `buildFileQuery`). -/
def baseQuery : String :=
  "\n      SELECT id, r2_key, filename, size_bytes, mime_type, product, category, created_at\n      FROM storage_files\n      WHERE user_id = ? AND deleted_at IS NULL\n    "

/-- `buildFileQuery(exportType, filters)` from the source: returns the
query text and the bound-parameter list.  The first parameter is pushed
as the empty string with the comment "Placeholder - will be filled by
caller"; the `switch` on the export type is an equality chain, with the
`category` arm guarded by the truthiness of `filters?.category` and
every unrecognized tag falling through with no extra condition. -/
def buildFileQuery (exportType : String) (filters : Option (List (String × String))) :
    String × List Param :=
  let params : List Param := [Param.str ""]
  let tc : String × List Param :=
    if exportType = "full" then ("", params)
    else if exportType = "blog" then (" AND product = ?", params ++ [Param.str "blog"])
    else if exportType = "ivy" then (" AND product = ?", params ++ [Param.str "ivy"])
    else if exportType = "category" then
      match categoryTruthy filters with
      | some c => (" AND category = ?", params ++ [Param.str c])
      | none => ("", params)
    else ("", params)
  (baseQuery ++ tc.1 ++ " ORDER BY created_at DESC", tc.2)

/-- The three complete query texts `buildFileQuery` can produce, indexed
by the type-specific condition. -/
def fullSql (cond : String) : String :=
  baseQuery ++ cond ++ " ORDER BY created_at DESC"

/-- Modelled from the spec: evaluation of the parameterized discovery
query by the relational store (an external collaborator, spec section 6:
"paginated, parameterized read of file records filtered by
owner/product/category", ordered by creation time descending).  Only the
three query shapes `buildFileQuery` produces are given meaning; any other
text or parameter arity is a malformed statement and yields `none`. -/
def runPreparedQuery (db : List DBFile) (sql : String) (params : List Param)
    (limit offset : Nat) : Option (List FileRecord) :=
  let ordered := db.insertionSort (fun a b => strLe b.created_at a.created_at = true)
  let page (l : List DBFile) : List FileRecord :=
    ((l.drop offset).take limit).map DBFile.toFileRecord
  let base (u : String) (r : DBFile) : Bool := r.user_id == u && r.deleted_at.isNone
  match params with
  | [Param.str u] =>
    if sql = fullSql "" then
      some (page (ordered.filter (fun r => base u r)))
    else none
  | [Param.str u, Param.str v] =>
    if sql = fullSql " AND product = ?" then
      some (page (ordered.filter (fun r => base u r && r.product == v)))
    else if sql = fullSql " AND category = ?" then
      some (page (ordered.filter (fun r => base u r && r.category == v)))
    else none
  | _ => none

/-- The rows the discovery query returns for the current chunk: the
statement built by `buildFileQuery` with ` LIMIT ? OFFSET ?` appended,
bound to `(...params, ZIP_CONFIG.CHUNK_FILE_LIMIT, state.currentOffset)`
exactly as `processChunk` binds it — note the placeholder first
parameter is passed through unreplaced. -/
def chunkRows (db : List DBFile) (s : ExportState) : Option (List FileRecord) :=
  let q := buildFileQuery s.exportType s.filterParams
  runPreparedQuery db q.1 q.2 CHUNK_FILE_LIMIT s.currentOffset

/-- The processed-file descriptor `processChunk` pushes for a file whose
probe succeeds (drops `mime_type` and `created_at`). -/
def toProcessed (f : FileRecord) : ProcessedFile :=
  { id := f.id
    r2_key := f.r2_key
    filename := f.filename
    size_bytes := f.size_bytes
    product := f.product
    category := f.category }

/-- Per-file body of the probe loop in `processChunk`: a present blob
appends a processed-file descriptor and adds its size to the running
total; an absent blob, or a probe that throws (caught by the
surrounding `catch`), appends the blob key to the missing list. -/
def processFile (probe : String → ProbeResult) (s : ExportState) (f : FileRecord) :
    ExportState :=
  match probe f.r2_key with
  | ProbeResult.found =>
    { s with
      processedFiles := s.processedFiles ++ [toProcessed f]
      totalSize := s.totalSize + f.size_bytes }
  | ProbeResult.absent => { s with missingFiles := s.missingFiles ++ [f.r2_key] }
  | ProbeResult.err => { s with missingFiles := s.missingFiles ++ [f.r2_key] }

/-- The sub-batch loop of `processChunk` (`for i = 0; i < len; i += 10`):
each sub-batch of 10 files is probed with a fan-in barrier before the
next; within a batch the concurrent probes' state updates are modelled
in row order (the spec guarantees no per-file ordering across a batch).
Recursion is structural on a fuel argument so the function reduces
computationally; the fuel-exhausted fallback processes the remaining
rows in order and is unreachable once the fuel is the row count. -/
def processBatchesAux (probe : String → ProbeResult) :
    Nat → ExportState → List FileRecord → ExportState
  | _, s, [] => s
  | 0, s, f :: rest => (f :: rest).foldl (processFile probe) s
  | Nat.succ fuel, s, f :: rest =>
    processBatchesAux probe fuel (((f :: rest).take 10).foldl (processFile probe) s)
      ((f :: rest).drop 10)

/-- The batching loop of `processChunk`, entered with fuel for every row. -/
def processBatches (probe : String → ProbeResult) (s : ExportState)
    (l : List FileRecord) : ExportState :=
  processBatchesAux probe l.length s l

/-- `processChunk(state)` from the source: runs the discovery query for
the current offset, probes each returned file, and decides whether more
chunks remain.  Returns `none` only when the prepared statement is
malformed (never the case for statements `buildFileQuery` builds). -/
def processChunk (db : List DBFile) (probe : String → ProbeResult) (s : ExportState) :
    Option (ExportState × Bool) :=
  match chunkRows db s with
  | none => none
  | some results =>
    if results.length = 0 then some (s, false)
    else
      let s1 := processBatches probe s results
      if CHUNK_SIZE_BYTES ≤ s1.totalSize then
        some ({ s1 with currentOffset := s1.currentOffset + results.length }, true)
      else if results.length < CHUNK_FILE_LIMIT then
        some (s1, false)
      else
        some ({ s1 with currentOffset := s1.currentOffset + results.length }, true)

/-- A row of the `storage_exports` table (the job record). `file_count`
and `size_bytes` are columns of the table (the repository's test
commands SELECT them) that the orchestrator may populate. -/
structure JobRecord where
  id : String
  user_id : String
  export_type : String
  filter_params : Option (List (String × String))
  status : String
  r2_key : Option String
  expires_at : Option Nat
  error_message : Option String
  file_count : Option Nat
  size_bytes : Option Nat
deriving Repr, DecidableEq

/-- Modelled from the spec: the trigger boundary (the excluded API
layer) creates the job record with status `pending` and every
result/failure field empty before asking the controller to start. -/
def initialJob (id user ty : String) (fp : Option (List (String × String))) : JobRecord :=
  { id := id
    user_id := user
    export_type := ty
    filter_params := fp
    status := "pending"
    r2_key := none
    expires_at := none
    error_message := none
    file_count := none
    size_bytes := none }

/-- The world visible to one job's Durable Object: its row in
`storage_exports`, the `export_state` key of Durable Object storage
(parsed), and the armed alarm time. -/
structure World where
  job : Option JobRecord
  exportState : Option ExportState
  pendingAlarm : Option Nat
deriving Repr, DecidableEq

/-- The `UPDATE storage_exports SET status = 'processing'` of
`startExport`: only the status column is written. -/
def startUpdate (j : JobRecord) : JobRecord :=
  { j with status := "processing" }

/-- The `UPDATE storage_exports SET status = 'completed', r2_key = ?,
expires_at = ?` of `finalizeExport`: exactly these three columns are
written. -/
def finalizeUpdate (j : JobRecord) (r2Key : String) (expiresAt : Nat) : JobRecord :=
  { j with status := "completed", r2_key := some r2Key, expires_at := some expiresAt }

/-- The `UPDATE storage_exports SET status = 'failed', error_message = ?`
of `handleFailure`: exactly these two columns are written. -/
def failureUpdate (j : JobRecord) (msg : String) : JobRecord :=
  { j with status := "failed", error_message := some msg }

/-- The fresh transient state `startExport` builds from the fetched job
row (`Date.now()` and `new Date().toISOString()` are both modelled from
the same clock value). -/
def initState (exportId : String) (result : JobRecord) (now : Nat) : ExportState :=
  { exportId := exportId
    userId := result.user_id
    exportType := result.export_type
    filterParams := result.filter_params
    currentOffset := 0
    processedFiles := []
    totalSize := 0
    missingFiles := []
    r2Key := "exports/" ++ result.user_id ++ "/" ++ exportId ++ "/" ++ toString now ++ "-export.zip"
    createdAt := toString now }

/-- `startExport(exportId)` from the source: fetch the job row (throw
`not found` if absent), build fresh transient state, persist it, mark
the row `processing`, and arm the first alarm one second out. -/
def startExport (w : World) (exportId : String) (now : Nat) : Except String World :=
  match w.job with
  | none => Except.error ("Export " ++ exportId ++ " not found")
  | some result =>
    if result.id = exportId then
      Except.ok
        { job := some (startUpdate result)
          exportState := some (initState exportId result now)
          pendingAlarm := some (now + 1000) }
    else Except.error ("Export " ++ exportId ++ " not found")

/-- One manifest entry, as built in `finalizeExport` from a
processed-file descriptor. -/
structure ManifestEntry where
  filename : String
  size : Nat
  r2_key : String
  product : String
  category : String
deriving Repr, DecidableEq

/-- The per-file mapping `finalizeExport` applies to build
`manifestEntries`. -/
def toManifestEntry (f : ProcessedFile) : ManifestEntry :=
  { filename := f.filename
    size := f.size_bytes
    r2_key := f.r2_key
    product := f.product
    category := f.category }

/-- The `manifestEntries` array `finalizeExport` maps from
`state.processedFiles`, in list (discovery) order. -/
def manifestEntries (s : ExportState) : List ManifestEntry :=
  s.processedFiles.map toManifestEntry

/-- Modelled from the spec: `createManifest` lives in the `zipStream`
module, which is absent from the sources; per the spec the manifest is
"the JSON-serialized array of manifest entries, one per processed file,
in the same order as the processed-file list", and parsing it back
yields the array unchanged, so the parsed manifest is modelled as the
entry list itself. -/
def createManifest (entries : List ManifestEntry) : List ManifestEntry :=
  entries

/-- The parsed content of the `manifest.json` entry `finalizeExport`
writes into the archive. -/
def archiveManifest (s : ExportState) : List ManifestEntry :=
  createManifest (manifestEntries s)

/-- Milliseconds in the 7-day retention window
(`7 * 24 * 60 * 60 * 1000` in the source). -/
def SEVEN_DAYS_MS : Nat := 7 * 24 * 60 * 60 * 1000

/-- The effect of a successful `finalizeExport(state)` on the job row:
`UPDATE storage_exports SET status = 'completed', r2_key = ?,
expires_at = ? WHERE id = ?` with the state's target key and
`now + 7 days`.  The processed-file count and total size are written
only into the R2 object's `customMetadata`, not into the row. -/
def finalizeExport (w : World) (s : ExportState) (now : Nat) : World :=
  { w with
    job := w.job.map (fun j =>
      if j.id = s.exportId then finalizeUpdate j s.r2Key (now + SEVEN_DAYS_MS) else j) }

/-- The string-keyed `customMetadata` attached to the uploaded archive
object by `finalizeExport` (numbers are `toString`-encoded as in the
source). -/
def uploadMetadata (s : ExportState) : List (String × String) :=
  [("export-id", s.exportId),
   ("user-id", s.userId),
   ("export-type", s.exportType),
   ("file-count", toString s.processedFiles.length),
   ("total-size", toString s.totalSize)]

/-- `handleFailure(state, error)` from the source: `UPDATE
storage_exports SET status = 'failed', error_message = ? WHERE id = ?`. -/
def handleFailure (j : JobRecord) (exportId msg : String) : JobRecord :=
  if j.id = exportId then failureUpdate j msg else j

/-- The environment one alarm tick runs against.  Modelled from the
spec: the external stores' failure modes (DiscoveryFailure on the
paginated query, ArchiveFailure/UploadFailure during finalization) are
injected as optional thrown-error messages, since the stores themselves
are external collaborators. -/
structure AlarmEnv where
  db : List DBFile
  probe : String → ProbeResult
  discoveryError : Option String
  finalizeError : Option String
  now : Nat

/-- The `processChunk` call as the alarm handler observes it: either the
discovery query throws, or the pure chunk computation runs. -/
def processChunkE (env : AlarmEnv) (s : ExportState) :
    Except String (ExportState × Bool) :=
  match env.discoveryError with
  | some msg => Except.error msg
  | none =>
    match processChunk env.db env.probe s with
    | some r => Except.ok r
    | none => Except.error "malformed query"

/-- The `finalizeExport` call as the alarm handler observes it: either
archive building or upload throws, or the finalize effects apply. -/
def finalizeExportE (env : AlarmEnv) (w : World) (s : ExportState) :
    Except String World :=
  match env.finalizeError with
  | some msg => Except.error msg
  | none => Except.ok (finalizeExport w s env.now)

/-- `alarm()` from the source: a tick with no transient state logs and
returns; otherwise one chunk is processed and the state persisted; more
chunks arm the next alarm 2 seconds out; exhaustion finalizes and
deletes the state; any error caught by the surrounding `try` is passed
to `handleFailure` and the state deleted. -/
def alarm (env : AlarmEnv) (w : World) : World :=
  match w.exportState with
  | none => w
  | some st =>
    match processChunkE env st with
    | Except.error msg =>
      { w with
        job := w.job.map (fun j => handleFailure j st.exportId msg)
        exportState := none }
    | Except.ok (st', hasMore) =>
      if hasMore then
        { w with exportState := some st', pendingAlarm := some (env.now + 2000) }
      else
        match finalizeExportE env { w with exportState := some st' } st' with
        | Except.error msg =>
          { w with
            job := w.job.map (fun j => handleFailure j st'.exportId msg)
            exportState := none }
        | Except.ok w' => { w' with exportState := none }

/-! ## Helper lemmas -/

/-- Whether the existence probe reports the file's blob present. -/
def isFound (probe : String → ProbeResult) (f : FileRecord) : Bool :=
  match probe f.r2_key with
  | ProbeResult.found => true
  | ProbeResult.absent => false
  | ProbeResult.err => false

theorem processFile_frame (probe : String → ProbeResult) (s : ExportState) (f : FileRecord) :
    (processFile probe s f).exportId = s.exportId ∧
    (processFile probe s f).userId = s.userId ∧
    (processFile probe s f).exportType = s.exportType ∧
    (processFile probe s f).filterParams = s.filterParams ∧
    (processFile probe s f).currentOffset = s.currentOffset ∧
    (processFile probe s f).r2Key = s.r2Key ∧
    (processFile probe s f).createdAt = s.createdAt := by
  cases hp : probe f.r2_key <;> simp [processFile, hp]

theorem foldl_processFile_frame (probe : String → ProbeResult) (l : List FileRecord) :
    ∀ s : ExportState,
    (l.foldl (processFile probe) s).exportId = s.exportId ∧
    (l.foldl (processFile probe) s).userId = s.userId ∧
    (l.foldl (processFile probe) s).exportType = s.exportType ∧
    (l.foldl (processFile probe) s).filterParams = s.filterParams ∧
    (l.foldl (processFile probe) s).currentOffset = s.currentOffset ∧
    (l.foldl (processFile probe) s).r2Key = s.r2Key ∧
    (l.foldl (processFile probe) s).createdAt = s.createdAt := by
  induction l with
  | nil => intro s; simp
  | cons f t ih =>
    intro s
    obtain ⟨h1, h2, h3, h4, h5, h6, h7⟩ := ih (processFile probe s f)
    obtain ⟨g1, g2, g3, g4, g5, g6, g7⟩ := processFile_frame probe s f
    simp only [List.foldl_cons]
    exact ⟨h1.trans g1, h2.trans g2, h3.trans g3, h4.trans g4, h5.trans g5,
      h6.trans g6, h7.trans g7⟩

theorem foldl_processFile_effect (probe : String → ProbeResult) (l : List FileRecord) :
    ∀ s : ExportState,
    (l.foldl (processFile probe) s).missingFiles
      = s.missingFiles ++ (l.filter (fun f => !(isFound probe f))).map FileRecord.r2_key ∧
    (l.foldl (processFile probe) s).processedFiles
      = s.processedFiles ++ (l.filter (fun f => isFound probe f)).map toProcessed ∧
    (l.foldl (processFile probe) s).totalSize
      = s.totalSize + ((l.filter (fun f => isFound probe f)).map FileRecord.size_bytes).sum := by
  induction l with
  | nil => intro s; simp
  | cons f t ih =>
    intro s
    obtain ⟨h1, h2, h3⟩ := ih (processFile probe s f)
    simp only [List.foldl_cons, h1, h2, h3]
    cases hp : probe f.r2_key <;>
      simp [List.filter_cons, isFound, hp, processFile, Nat.add_assoc, List.append_assoc]

theorem processBatchesAux_eq_foldl (probe : String → ProbeResult) :
    ∀ (fuel : Nat) (s : ExportState) (l : List FileRecord),
    processBatchesAux probe fuel s l = l.foldl (processFile probe) s
  | 0, s, [] => rfl
  | 0, s, _ :: _ => rfl
  | Nat.succ _, s, [] => rfl
  | Nat.succ fuel, s, f :: rest => by
    rw [processBatchesAux, processBatchesAux_eq_foldl probe fuel, ← List.foldl_append,
      List.take_append_drop]

theorem processBatches_eq_foldl (probe : String → ProbeResult) (s : ExportState)
    (l : List FileRecord) :
    processBatches probe s l = l.foldl (processFile probe) s :=
  processBatchesAux_eq_foldl probe l.length s l

theorem processChunk_frame (db : List DBFile) (probe : String → ProbeResult)
    (s s' : ExportState) (more : Bool)
    (h : processChunk db probe s = some (s', more)) :
    s'.exportId = s.exportId ∧ s'.userId = s.userId ∧ s'.exportType = s.exportType ∧
    s'.filterParams = s.filterParams ∧ s'.r2Key = s.r2Key := by
  unfold processChunk at h
  cases hc : chunkRows db s with
  | none => rw [hc] at h; cases h
  | some rs =>
    rw [hc] at h
    dsimp only at h
    obtain ⟨f1, f2, f3, f4, _, f6, _⟩ := foldl_processFile_frame probe rs s
    by_cases h0 : rs.length = 0
    · rw [if_pos h0] at h
      simp only [Option.some.injEq, Prod.mk.injEq] at h
      obtain ⟨rfl, rfl⟩ := h
      exact ⟨rfl, rfl, rfl, rfl, rfl⟩
    · rw [if_neg h0] at h
      simp only [processBatches_eq_foldl] at h
      split at h
      · simp only [Option.some.injEq, Prod.mk.injEq] at h
        obtain ⟨rfl, rfl⟩ := h
        exact ⟨f1, f2, f3, f4, f6⟩
      · split at h <;>
        · simp only [Option.some.injEq, Prod.mk.injEq] at h
          obtain ⟨rfl, rfl⟩ := h
          exact ⟨f1, f2, f3, f4, f6⟩

theorem processChunk_effect (db : List DBFile) (probe : String → ProbeResult)
    (s : ExportState) (rs : List FileRecord) (h : chunkRows db s = some rs) :
    ∃ s' more, processChunk db probe s = some (s', more) ∧
      s'.missingFiles = s.missingFiles
        ++ (rs.filter (fun f => !(isFound probe f))).map FileRecord.r2_key ∧
      s'.processedFiles = s.processedFiles
        ++ (rs.filter (fun f => isFound probe f)).map toProcessed ∧
      s'.totalSize = s.totalSize
        + ((rs.filter (fun f => isFound probe f)).map FileRecord.size_bytes).sum := by
  obtain ⟨e1, e2, e3⟩ := foldl_processFile_effect probe rs s
  unfold processChunk
  rw [h]
  dsimp only
  by_cases h0 : rs.length = 0
  · rw [if_pos h0]
    obtain rfl := List.length_eq_zero.mp h0
    exact ⟨s, false, rfl, by simp, by simp, by simp⟩
  · rw [if_neg h0]
    simp only [processBatches_eq_foldl]
    by_cases hsz : CHUNK_SIZE_BYTES ≤ (rs.foldl (processFile probe) s).totalSize
    · rw [if_pos hsz]
      exact ⟨_, true, rfl, e1, e2, e3⟩
    · rw [if_neg hsz]
      by_cases hlim : rs.length < CHUNK_FILE_LIMIT
      · rw [if_pos hlim]
        exact ⟨_, false, rfl, e1, e2, e3⟩
      · rw [if_neg hlim]
        exact ⟨_, true, rfl, e1, e2, e3⟩

theorem isFound_true_iff (probe : String → ProbeResult) (f : FileRecord) :
    isFound probe f = true ↔ probe f.r2_key = ProbeResult.found := by
  unfold isFound
  cases probe f.r2_key <;> simp

theorem isFound_false_iff (probe : String → ProbeResult) (f : FileRecord) :
    isFound probe f = false ↔ probe f.r2_key ≠ ProbeResult.found := by
  unfold isFound
  cases probe f.r2_key <;> simp

/-- Key-level soundness of the two accumulator lists with respect to the
probe: every key on the missing list probed not-present, every processed
descriptor's key probed present. -/
def StateOk (probe : String → ProbeResult) (s : ExportState) : Prop :=
  (∀ k ∈ s.missingFiles, probe k ≠ ProbeResult.found) ∧
  (∀ p ∈ s.processedFiles, probe p.r2_key = ProbeResult.found)

/-- Transient states a job's actor can actually hold against a fixed
store: the fresh state built by `startExport`, closed under single
`processChunk` steps. -/
inductive ExportRun (db : List DBFile) (probe : String → ProbeResult) :
    ExportState → Prop where
  | started (exportId : String) (j : JobRecord) (now : Nat) :
      ExportRun db probe (initState exportId j now)
  | chunk (s s' : ExportState) (more : Bool) :
      ExportRun db probe s → processChunk db probe s = some (s', more) →
      ExportRun db probe s'

theorem stateOk_of_run (db : List DBFile) (probe : String → ProbeResult)
    (s : ExportState) (h : ExportRun db probe s) : StateOk probe s := by
  induction h with
  | started exportId j now =>
    exact ⟨by simp [initState], by simp [initState]⟩
  | chunk s s' more _ hstep ih =>
    obtain ⟨ih1, ih2⟩ := ih
    cases hc : chunkRows db s with
    | none =>
      unfold processChunk at hstep
      rw [hc] at hstep
      cases hstep
    | some rs =>
      obtain ⟨s'', more', he, hm, hp, _⟩ := processChunk_effect db probe s rs hc
      rw [hstep] at he
      simp only [Option.some.injEq, Prod.mk.injEq] at he
      obtain ⟨rfl, rfl⟩ := he
      constructor
      · intro k hk
        rw [hm] at hk
        rcases List.mem_append.mp hk with hk | hk
        · exact ih1 k hk
        · obtain ⟨f, hf, rfl⟩ := List.mem_map.mp hk
          have hff := (List.mem_filter.mp hf).2
          simp only [Bool.not_eq_true'] at hff
          exact (isFound_false_iff probe f).mp hff
      · intro p hp'
        rw [hp] at hp'
        rcases List.mem_append.mp hp' with hp' | hp'
        · exact ih2 p hp'
        · obtain ⟨f, hf, rfl⟩ := List.mem_map.mp hp'
          have hff := (List.mem_filter.mp hf).2
          exact (isFound_true_iff probe f).mp hff

theorem processChunkE_ok (env : AlarmEnv) (s s' : ExportState) (more : Bool)
    (h : processChunkE env s = Except.ok (s', more)) :
    processChunk env.db env.probe s = some (s', more) := by
  unfold processChunkE at h
  cases hd : env.discoveryError with
  | some m => rw [hd] at h; cases h
  | none =>
    rw [hd] at h
    dsimp only at h
    cases hc : processChunk env.db env.probe s with
    | none => rw [hc] at h; cases h
    | some r =>
      rw [hc] at h
      dsimp only at h
      injection h with h'
      rw [h']

/-! ## Claims -/

/-- Concrete owner file for claim C1: a non-deleted file owned by
"alice". -/
def c1Row : DBFile :=
  { id := "f1", user_id := "alice", r2_key := "k1", filename := "a.txt", size_bytes := 5,
    mime_type := "text/plain", product := "blog", category := "images",
    created_at := "2024-01-01", deleted_at := none }

/-- Concrete transient state for claim C1: the state `startExport`
builds for alice's full export. -/
def c1State : ExportState := initState "e1" (initialJob "e1" "alice" "full" none) 0

set_option maxRecDepth 8000 in
/-- Claim C1 (code bug): the owner identity recorded in the transient
state is "alice", but the user-identity parameter the chunk query is
executed with is the empty-string placeholder `buildFileQuery` pushed —
`processChunk` never fills it with `state.userId`, contradicting the
source's own comment "Placeholder - will be filled by caller".
Consequently the query returns zero rows even though the owner has a
matching non-deleted file, and the chunk step ends the export with
nothing processed. -/
theorem C1_query_binds_placeholder_not_owner :
    c1State.userId = "alice" ∧
    (buildFileQuery c1State.exportType c1State.filterParams).2 = [Param.str ""] ∧
    (List.filter (fun r => r.user_id == c1State.userId && r.deleted_at.isNone)
      [c1Row]).length = 1 ∧
    chunkRows [c1Row] c1State = some [] ∧
    processChunk [c1Row] (fun _ => ProbeResult.found) c1State = some (c1State, false) := by
  refine ⟨rfl, ?_, ?_, ?_, ?_⟩ <;> decide

/-- Concrete job record for claim C2. -/
def c2Job : JobRecord := initialJob "e2" "bob" "full" none

/-- Concrete transient state for claim C2: one processed file of 5
bytes accumulated. -/
def c2State : ExportState :=
  { initState "e2" c2Job 7 with
    processedFiles := [{ id := "f2", r2_key := "k2", filename := "b.txt", size_bytes := 5,
                         product := "blog", category := "images" }]
    totalSize := 5 }

/-- Concrete world for claim C2. -/
def c2World : World :=
  { job := some c2Job, exportState := some c2State, pendingAlarm := none }

/-- Claim C2 (code bug): on successful finalization the job record gets
status `completed`, the archive blob key, and expiry = completion time
plus 7 days — but the UPDATE writes only those three columns, so
`file_count` and `size_bytes` remain unset even though one file of 5
bytes was processed; the count and total size are recorded only in the
R2 object's `customMetadata`. -/
theorem C2_finalize_leaves_count_and_size_unset :
    ((finalizeExport c2World c2State 1000).job.map JobRecord.status = some "completed") ∧
    ((finalizeExport c2World c2State 1000).job.map JobRecord.r2_key
      = some (some c2State.r2Key)) ∧
    ((finalizeExport c2World c2State 1000).job.map JobRecord.expires_at
      = some (some (1000 + SEVEN_DAYS_MS))) ∧
    uploadMetadata c2State = [("export-id", "e2"), ("user-id", "bob"), ("export-type", "full"),
      ("file-count", "1"), ("total-size", "5")] ∧
    c2State.processedFiles.length = 1 ∧
    c2State.totalSize = 5 ∧
    ((finalizeExport c2World c2State 1000).job.map JobRecord.file_count = some none) ∧
    ((finalizeExport c2World c2State 1000).job.map JobRecord.size_bytes = some none) := by
  refine ⟨?_, ?_, ?_, ?_, ?_, ?_, ?_, ?_⟩ <;> decide

/-- One write the orchestrator can perform on a job record: the status
write of `startExport` (re-invoked by the sweep on restart), the
completion write of `finalizeExport`, and the failure write of
`handleFailure`. -/
inductive JobStep : JobRecord → JobRecord → Prop where
  | start (j : JobRecord) : JobStep j (startUpdate j)
  | finalize (j : JobRecord) (k : String) (e : Nat) : JobStep j (finalizeUpdate j k e)
  | fail (j : JobRecord) (msg : String) : JobStep j (failureUpdate j msg)

/-- Job records reachable from a fresh pending record by any sequence
of controller writes. -/
inductive ReachableJob : JobRecord → Prop where
  | init (id user ty : String) (fp : Option (List (String × String))) :
      ReachableJob (initialJob id user ty fp)
  | step (j j' : JobRecord) : ReachableJob j → JobStep j j' → ReachableJob j'

/-- The job record after the sequence: start, first attempt fails,
sweep restarts, second attempt completes. -/
def c3Bad : JobRecord :=
  finalizeUpdate
    (startUpdate (failureUpdate (startUpdate (initialJob "e3" "carol" "full" none)) "boom"))
    "exports/carol/e3/9-export.zip" 9

/-- Claim C3 counterexample: a failed attempt later restarted by the
sweep and completed reaches a terminal record with the result fields
AND the failure field populated — neither `startExport` nor
`finalizeExport` ever clears `error_message`, so "exactly one of the
two is populated" fails. -/
theorem C3_terminal_with_both_result_and_error :
    ReachableJob c3Bad ∧
    c3Bad.status = "completed" ∧
    c3Bad.r2_key = some "exports/carol/e3/9-export.zip" ∧
    c3Bad.expires_at = some 9 ∧
    c3Bad.error_message = some "boom" := by
  refine ⟨?_, by decide⟩
  exact ReachableJob.step _ _
    (ReachableJob.step _ _
      (ReachableJob.step _ _
        (ReachableJob.step _ _ (ReachableJob.init "e3" "carol" "full" none) (JobStep.start _))
        (JobStep.fail _ "boom"))
      (JobStep.start _))
    (JobStep.finalize _ "exports/carol/e3/9-export.zip" 9)

/-- Claim C3 (amended): for every reachable job record, once the status
is terminal the field matching that status is populated — `completed`
records carry a blob key and an expiry, `failed` records carry an error
message; but after a failed attempt is restarted and completed both
families can be populated at once, since no transition clears the
failure field. -/
theorem C3_amended_terminal_field_populated (j : JobRecord) (h : ReachableJob j) :
    (j.status = "completed" → j.r2_key.isSome = true ∧ j.expires_at.isSome = true) ∧
    (j.status = "failed" → j.error_message.isSome = true) := by
  induction h with
  | init id user ty fp =>
    constructor <;> intro hc <;> simp [initialJob] at hc
  | step j j' _ hs ih =>
    cases hs with
    | start =>
      constructor <;> intro hc <;> simp [startUpdate] at hc
    | finalize k e =>
      refine ⟨fun _ => by simp [finalizeUpdate], fun hc => ?_⟩
      simp [finalizeUpdate] at hc
    | fail msg =>
      refine ⟨fun hc => ?_, fun _ => by simp [failureUpdate]⟩
      simp [failureUpdate] at hc

/-- Witness for the amended claim C3 at a concrete reachable record. -/
theorem C3_amended_witness :
    ((initialJob "w3" "u" "full" none).status = "completed" →
      (initialJob "w3" "u" "full" none).r2_key.isSome = true ∧
      (initialJob "w3" "u" "full" none).expires_at.isSome = true) ∧
    ((initialJob "w3" "u" "full" none).status = "failed" →
      (initialJob "w3" "u" "full" none).error_message.isSome = true) :=
  C3_amended_terminal_field_populated _ (ReachableJob.init "w3" "u" "full" none)

/-- Concrete row for the C4 counterexample: a single 60MB file (owned
by the empty-string identity the chunk query is actually bound to). -/
def c4Row : DBFile :=
  { id := "f4", user_id := "", r2_key := "k4", filename := "big.bin",
    size_bytes := 60 * 1024 * 1024, mime_type := "application/octet-stream",
    product := "blog", category := "media", created_at := "2024-01-01",
    deleted_at := none }

/-- Concrete transient state for the C4 counterexample. -/
def c4State : ExportState := initState "e4" (initialJob "e4" "" "full" none) 0

set_option maxRecDepth 8000 in
/-- Claim C4 counterexample: the query returns 1 row — fewer than the
page limit of 100 — yet `processChunk` returns `true`, because the
size-threshold check (`totalSize >= CHUNK_SIZE_BYTES`) runs first and
the single file is 60MB.  So "returns false exactly when zero rows or
fewer rows than the page limit" is false on the code. -/
theorem C4_size_threshold_overrides_row_count :
    (chunkRows [c4Row] c4State).map List.length = some 1 ∧
    1 < CHUNK_FILE_LIMIT ∧
    (processChunk [c4Row] (fun _ => ProbeResult.found) c4State).map Prod.snd = some true := by
  refine ⟨?_, ?_, ?_⟩ <;> decide

/-- Claim C4 (amended): `processChunk` returns `false` exactly when the
query returns zero rows, or returns fewer rows than the page limit
while the accumulated running total stays below the size threshold; in
every other case — including fewer rows than the limit with the
threshold reached — it returns `true`. -/
theorem C4_amended_halting_rule (db : List DBFile) (probe : String → ProbeResult)
    (s s' : ExportState) (more : Bool) (rs : List FileRecord)
    (hrows : chunkRows db s = some rs)
    (h : processChunk db probe s = some (s', more)) :
    more = false ↔
      (rs.length = 0 ∨ (rs.length < CHUNK_FILE_LIMIT ∧ s'.totalSize < CHUNK_SIZE_BYTES)) := by
  unfold processChunk at h
  rw [hrows] at h
  dsimp only at h
  by_cases h0 : rs.length = 0
  · rw [if_pos h0] at h
    simp only [Option.some.injEq, Prod.mk.injEq] at h
    obtain ⟨rfl, rfl⟩ := h
    simp [h0]
  · rw [if_neg h0] at h
    simp only [processBatches_eq_foldl] at h
    by_cases hsz : CHUNK_SIZE_BYTES ≤ (rs.foldl (processFile probe) s).totalSize
    · rw [if_pos hsz] at h
      simp only [Option.some.injEq, Prod.mk.injEq] at h
      obtain ⟨rfl, rfl⟩ := h
      simp [h0, Nat.not_lt.mpr hsz]
    · rw [if_neg hsz] at h
      by_cases hlim : rs.length < CHUNK_FILE_LIMIT
      · rw [if_pos hlim] at h
        simp only [Option.some.injEq, Prod.mk.injEq] at h
        obtain ⟨rfl, rfl⟩ := h
        simp [h0, hlim, Nat.lt_of_not_le hsz]
      · rw [if_neg hlim] at h
        simp only [Option.some.injEq, Prod.mk.injEq] at h
        obtain ⟨rfl, rfl⟩ := h
        simp [h0, hlim]

/-- Concrete transient state for the C4 amended witness. -/
def c4WState : ExportState := initState "w4" (initialJob "w4" "dana" "full" none) 0

set_option maxRecDepth 8000 in
/-- Witness for the amended claim C4 at a concrete input: an empty
table yields zero rows and the chunk step halts. -/
theorem C4_amended_witness :
    false = false ↔
      (([] : List FileRecord).length = 0 ∨
        (([] : List FileRecord).length < CHUNK_FILE_LIMIT ∧
          c4WState.totalSize < CHUNK_SIZE_BYTES)) :=
  C4_amended_halting_rule [] (fun _ => ProbeResult.found) c4WState c4WState false []
    (by decide) (by decide)

/-- Claim C5: any error thrown during chunk processing, or during
finalization after the last chunk, is caught by the alarm handler's
error boundary: the job record is written to status `failed` with the
error's message, and the transient state is deleted, so no transient
state remains after a failed attempt. -/
theorem C5_failure_writes_failed_and_deletes_state
    (env : AlarmEnv) (w : World) (st : ExportState) (j : JobRecord) (msg : String)
    (hst : w.exportState = some st) (hj : w.job = some j) (hid : j.id = st.exportId)
    (herr : processChunkE env st = Except.error msg ∨
      ∃ st', processChunkE env st = Except.ok (st', false) ∧ env.finalizeError = some msg) :
    (alarm env w).job = some (failureUpdate j msg) ∧ (alarm env w).exportState = none := by
  unfold alarm
  rw [hst]
  dsimp only
  rcases herr with herr | ⟨st', hok, hfe⟩
  · rw [herr]
    dsimp only
    rw [hj]
    simp [handleFailure, hid]
  · rw [hok]
    dsimp only
    unfold finalizeExportE
    rw [hfe]
    dsimp only
    have hfr : st'.exportId = st.exportId :=
      (processChunk_frame env.db env.probe st st' false (processChunkE_ok env st st' false hok)).1
    rw [hj]
    simp [handleFailure, hfr, hid]

/-- Concrete job, world and environment for the C5 witness: the
discovery query throws "boom" on the first tick. -/
def c5Job : JobRecord := initialJob "e5" "erin" "full" none

/-- Concrete transient state for the C5 witness. -/
def c5State : ExportState := initState "e5" c5Job 0

/-- Concrete world for the C5 witness. -/
def c5World : World :=
  { job := some c5Job, exportState := some c5State, pendingAlarm := some 0 }

/-- Concrete alarm environment for the C5 witness. -/
def c5Env : AlarmEnv :=
  { db := [], probe := fun _ => ProbeResult.found, discoveryError := some "boom",
    finalizeError := none, now := 3 }

/-- Witness for claim C5 at a concrete failing tick. -/
theorem C5_witness :
    (alarm c5Env c5World).job = some (failureUpdate c5Job "boom") ∧
    (alarm c5Env c5World).exportState = none :=
  C5_failure_writes_failed_and_deletes_state c5Env c5World c5State c5Job "boom"
    rfl rfl rfl (Or.inl rfl)

/-- Claim C6: within a chunk, every returned file whose existence probe
throws or reports the blob absent has its blob key appended to the
missing list; the chunk step still returns a result (the probe outcome
is never propagated as an error and never aborts the chunk), the
processed-file list gains entries only for files whose probe succeeded,
and the running total gains only those files' byte sizes. -/
theorem C6_probe_failure_recorded_never_propagated
    (db : List DBFile) (probe : String → ProbeResult) (s : ExportState)
    (rs : List FileRecord) (h : chunkRows db s = some rs) :
    ∃ s' more, processChunk db probe s = some (s', more) ∧
      (∀ f ∈ rs, isFound probe f = false → f.r2_key ∈ s'.missingFiles) ∧
      s'.missingFiles = s.missingFiles
        ++ (rs.filter (fun f => !(isFound probe f))).map FileRecord.r2_key ∧
      s'.processedFiles = s.processedFiles
        ++ (rs.filter (fun f => isFound probe f)).map toProcessed ∧
      s'.totalSize = s.totalSize
        + ((rs.filter (fun f => isFound probe f)).map FileRecord.size_bytes).sum := by
  obtain ⟨s', more, he, hm, hp, ht⟩ := processChunk_effect db probe s rs h
  refine ⟨s', more, he, ?_, hm, hp, ht⟩
  intro f hf hnf
  rw [hm]
  refine List.mem_append_right _ (List.mem_map_of_mem _ (List.mem_filter.mpr ⟨hf, ?_⟩))
  simp [hnf]

/-- Concrete rows for the C6 witness: one file present in R2, one whose
probe throws. -/
def c6RowA : DBFile :=
  { id := "f6a", user_id := "", r2_key := "k6a", filename := "a.txt", size_bytes := 3,
    mime_type := "text/plain", product := "blog", category := "images",
    created_at := "2024-02-01", deleted_at := none }

/-- Second concrete row for the C6 witness. -/
def c6RowB : DBFile :=
  { id := "f6b", user_id := "", r2_key := "k6b", filename := "b.txt", size_bytes := 4,
    mime_type := "text/plain", product := "ivy", category := "docs",
    created_at := "2024-01-01", deleted_at := none }

/-- Concrete probe for the C6 witness: `k6b` throws. -/
def c6Probe : String → ProbeResult :=
  fun k => if k = "k6b" then ProbeResult.err else ProbeResult.found

/-- Concrete transient state for the C6 witness. -/
def c6State : ExportState := initState "e6" (initialJob "e6" "" "full" none) 0

set_option maxRecDepth 8000 in
/-- Witness for claim C6 at a concrete chunk with one failing probe. -/
theorem C6_witness :
    ∃ s' more, processChunk [c6RowA, c6RowB] c6Probe c6State = some (s', more) ∧
      (∀ f ∈ [c6RowA.toFileRecord, c6RowB.toFileRecord],
        isFound c6Probe f = false → f.r2_key ∈ s'.missingFiles) ∧
      s'.missingFiles = c6State.missingFiles
        ++ (([c6RowA.toFileRecord, c6RowB.toFileRecord].filter
              (fun f => !(isFound c6Probe f))).map FileRecord.r2_key) ∧
      s'.processedFiles = c6State.processedFiles
        ++ (([c6RowA.toFileRecord, c6RowB.toFileRecord].filter
              (fun f => isFound c6Probe f)).map toProcessed) ∧
      s'.totalSize = c6State.totalSize
        + ((([c6RowA.toFileRecord, c6RowB.toFileRecord].filter
              (fun f => isFound c6Probe f)).map FileRecord.size_bytes).sum) :=
  C6_probe_failure_recorded_never_propagated [c6RowA, c6RowB] c6Probe c6State
    [c6RowA.toFileRecord, c6RowB.toFileRecord] (by decide)

/-- Claim C7: for any transient state an export run can reach, the
manifest written into the archive is exactly the processed-file list
mapped entrywise (one entry per processed file, in discovery order),
and no manifest entry's blob key is on the missing list. -/
theorem C7_manifest_one_entry_per_processed_file (db : List DBFile)
    (probe : String → ProbeResult) (s : ExportState) (h : ExportRun db probe s) :
    archiveManifest s = s.processedFiles.map toManifestEntry ∧
    (archiveManifest s).length = s.processedFiles.length ∧
    (∀ e ∈ archiveManifest s, e.r2_key ∉ s.missingFiles) := by
  obtain ⟨okM, okP⟩ := stateOk_of_run db probe s h
  refine ⟨rfl, by simp [archiveManifest, createManifest, manifestEntries], ?_⟩
  intro e he hmem
  simp only [archiveManifest, createManifest, manifestEntries] at he
  obtain ⟨p, hp, rfl⟩ := List.mem_map.mp he
  exact okM _ hmem (okP p hp)

/-- Concrete job for the C7 witness. -/
def c7Job : JobRecord := initialJob "e7" "" "full" none

/-- Concrete rows for the C7 witness: `ka` present, `kb` absent. -/
def c7RowA : DBFile :=
  { id := "fa", user_id := "", r2_key := "ka", filename := "a.txt", size_bytes := 3,
    mime_type := "text/plain", product := "blog", category := "images",
    created_at := "2024-02-01", deleted_at := none }

/-- Second concrete row for the C7 witness. -/
def c7RowB : DBFile :=
  { id := "fb", user_id := "", r2_key := "kb", filename := "b.txt", size_bytes := 4,
    mime_type := "text/plain", product := "ivy", category := "docs",
    created_at := "2024-01-01", deleted_at := none }

/-- Concrete probe for the C7 witness. -/
def c7Probe : String → ProbeResult :=
  fun k => if k = "ka" then ProbeResult.found else ProbeResult.absent

/-- The state the C7 witness run reaches after its single chunk. -/
def c7Final : ExportState :=
  { exportId := "e7", userId := "", exportType := "full", filterParams := none,
    currentOffset := 0,
    processedFiles := [{ id := "fa", r2_key := "ka", filename := "a.txt", size_bytes := 3,
                         product := "blog", category := "images" }],
    totalSize := 3, missingFiles := ["kb"],
    r2Key := "exports//e7/0-export.zip", createdAt := "0" }

set_option maxRecDepth 8000 in
/-- Witness for claim C7 at a concrete run with one processed and one
missing file. -/
theorem C7_witness :
    archiveManifest c7Final = c7Final.processedFiles.map toManifestEntry ∧
    (archiveManifest c7Final).length = c7Final.processedFiles.length ∧
    (∀ e ∈ archiveManifest c7Final, e.r2_key ∉ c7Final.missingFiles) :=
  C7_manifest_one_entry_per_processed_file [c7RowA, c7RowB] c7Probe c7Final
    (ExportRun.chunk (initState "e7" c7Job 0) c7Final false
      (ExportRun.started "e7" c7Job 0) (by decide))

/-- Claim C8: an alarm tick that finds no transient state in storage
changes nothing — the whole world (job record, storage, armed timer) is
returned untouched. -/
theorem C8_alarm_without_state_is_noop (env : AlarmEnv) (w : World)
    (h : w.exportState = none) : alarm env w = w := by
  unfold alarm
  rw [h]

/-- Concrete world for the C8 witness. -/
def c8World : World :=
  { job := some (initialJob "e8" "fay" "full" none), exportState := none,
    pendingAlarm := none }

/-- Concrete alarm environment for the C8 witness. -/
def c8Env : AlarmEnv :=
  { db := [], probe := fun _ => ProbeResult.found, discoveryError := none,
    finalizeError := none, now := 0 }

/-- Witness for claim C8 at a concrete stale tick. -/
theorem C8_witness : alarm c8Env c8World = c8World :=
  C8_alarm_without_state_is_noop c8Env c8World rfl

/-- Claim C9: the SQL text `buildFileQuery` returns depends only on the
export kind and on whether a (truthy) category filter is present, never
on the filter values themselves, and the text is always one of three
fixed strings whose predicates are `?` placeholders — untrusted values
travel only in the bound-parameter list. -/
theorem C9_query_text_independent_of_filter_values (ty : String)
    (f g : Option (List (String × String)))
    (h : (categoryTruthy f).isSome = (categoryTruthy g).isSome) :
    (buildFileQuery ty f).1 = (buildFileQuery ty g).1 ∧
    (buildFileQuery ty f).1
      ∈ [fullSql "", fullSql " AND product = ?", fullSql " AND category = ?"] := by
  cases hf : categoryTruthy f with
  | none =>
    cases hg : categoryTruthy g with
    | none =>
      simp only [buildFileQuery, hf, hg]
      split_ifs <;> simp [fullSql]
    | some c => rw [hf, hg] at h; simp at h
  | some c =>
    cases hg : categoryTruthy g with
    | none => rw [hf, hg] at h; simp at h
    | some d =>
      simp only [buildFileQuery, hf, hg]
      split_ifs <;> simp [fullSql]

/-- Witness for claim C9: two category exports with different filter
values produce identical query text. -/
theorem C9_witness :
    (buildFileQuery "category" (some [("category", "art")])).1
      = (buildFileQuery "category" (some [("category", "music")])).1 ∧
    (buildFileQuery "category" (some [("category", "art")])).1
      ∈ [fullSql "", fullSql " AND product = ?", fullSql " AND category = ?"] :=
  C9_query_text_independent_of_filter_values "category"
    (some [("category", "art")]) (some [("category", "music")]) (by decide)

/-- Every row the no-condition (full-shaped) prepared query returns
with the placeholder parameter comes from a table row owned by the
empty-string identity and not deleted: the placeholder, not the job's
owner, is what the predicate is bound to. -/
theorem runPreparedQuery_full_placeholder_mem (db : List DBFile)
    (limit offset : Nat) (rs : List FileRecord)
    (h : runPreparedQuery db (fullSql "") [Param.str ""] limit offset = some rs) :
    ∀ r ∈ rs, ∃ row ∈ db, row.user_id = "" ∧ row.deleted_at = none ∧
      DBFile.toFileRecord row = r := by
  unfold runPreparedQuery at h
  dsimp only at h
  rw [if_pos rfl] at h
  simp only [Option.some.injEq] at h
  subst h
  intro r hr
  obtain ⟨row, hrow, rfl⟩ := List.mem_map.mp hr
  have hfil : row ∈ (db.insertionSort
      (fun a b => strLe b.created_at a.created_at = true)).filter
        (fun r => r.user_id == "" && r.deleted_at.isNone) :=
    (List.drop_subset _ _) ((List.take_subset _ _) hrow)
  obtain ⟨hsort, hpred⟩ := List.mem_filter.mp hfil
  have hdb : row ∈ db :=
    (List.perm_insertionSort (fun a b => strLe b.created_at a.created_at = true) db).mem_iff.mp
      hsort
  simp only [Bool.and_eq_true, beq_iff_eq, Option.isNone_iff_eq_none] at hpred
  exact ⟨row, hdb, hpred.1, hpred.2, rfl⟩

/-- Concrete job for claim C10, with the unrecognized kind "weird"
owned by "gail". -/
def c10Job : JobRecord := initialJob "e10" "gail" "weird" none

/-- Concrete transient state for the C10 counterexample: what
`startExport` builds for gail's "weird" export. -/
def c10State : ExportState := initState "e10" c10Job 5

/-- Concrete owner file for the C10 counterexample: a non-deleted file
owned by "gail". -/
def c10Row : DBFile :=
  { id := "f10", user_id := "gail", r2_key := "k10", filename := "g.txt", size_bytes := 6,
    mime_type := "text/plain", product := "blog", category := "images",
    created_at := "2024-03-01", deleted_at := none }

set_option maxRecDepth 8000 in
/-- Claim C10 counterexample: with the unrecognized kind "weird" the
query is full-shaped, yet the export does not select the owner's
non-deleted files — gail owns one visible file, but the chunk query
(bound to the unfilled placeholder, not to `state.userId`) returns zero
rows, so "the export selects all of the owner's non-deleted files" is
false on the code. -/
theorem C10_owner_files_not_selected :
    c10State.userId = "gail" ∧
    c10State.exportType = "weird" ∧
    buildFileQuery c10State.exportType c10State.filterParams = buildFileQuery "full" none ∧
    (List.filter (fun r => r.user_id == c10State.userId && r.deleted_at.isNone)
      [c10Row]).length = 1 ∧
    chunkRows [c10Row] c10State = some [] := by
  refine ⟨rfl, rfl, ?_, ?_, ?_⟩ <;> decide

/-- Claim C10 (amended): an export kind outside the four recognized
tags falls through the switch with no type-specific restriction, so its
query equals the `full` kind's query (text and parameters), and
`startExport` accepts any stored kind unvalidated — the raw tag is
copied into the transient state and the job proceeds.  But the export
does not select the owner's non-deleted files: the query's identity
predicate is bound to the unfilled placeholder, so every row it returns
belongs to the empty-string identity. -/
theorem C10_amended_unrecognized_kind_full_shape (ty : String)
    (f : Option (List (String × String))) (w : World) (j : JobRecord)
    (exportId : String) (now : Nat) (db : List DBFile)
    (hty : ty ∉ (["full", "blog", "ivy", "category"] : List String))
    (hj : w.job = some j) (hid : j.id = exportId) (hkind : j.export_type = ty) :
    buildFileQuery ty f = buildFileQuery "full" f ∧
    startExport w exportId now = Except.ok
      { job := some (startUpdate j)
        exportState := some (initState exportId j now)
        pendingAlarm := some (now + 1000) } ∧
    (initState exportId j now).exportType = ty ∧
    (∀ rs, chunkRows db (initState exportId j now) = some rs →
      ∀ r ∈ rs, ∃ row ∈ db, row.user_id = "" ∧ row.deleted_at = none ∧
        DBFile.toFileRecord row = r) := by
  simp only [List.mem_cons, List.not_mem_nil, or_false, not_or] at hty
  obtain ⟨h1, h2, h3, h4⟩ := hty
  have hq : ∀ g : Option (List (String × String)),
      buildFileQuery ty g = (fullSql "", [Param.str ""]) := by
    intro g
    simp [buildFileQuery, h1, h2, h3, h4, fullSql]
  refine ⟨?_, ?_, ?_, ?_⟩
  · simp [buildFileQuery, h1, h2, h3, h4]
  · unfold startExport
    rw [hj]
    dsimp only
    rw [if_pos hid]
  · simp [initState, hkind]
  · intro rs hrs
    unfold chunkRows at hrs
    dsimp only [initState] at hrs
    rw [hkind, hq] at hrs
    exact runPreparedQuery_full_placeholder_mem db CHUNK_FILE_LIMIT 0 rs hrs

/-- Concrete world for the C10 amended witness. -/
def c10World : World :=
  { job := some c10Job, exportState := none, pendingAlarm := none }

/-- Witness for the amended claim C10 at the concrete kind "weird" and
gail's one-row table. -/
theorem C10_amended_witness :
    buildFileQuery "weird" none = buildFileQuery "full" none ∧
    startExport c10World "e10" 5 = Except.ok
      { job := some (startUpdate c10Job)
        exportState := some (initState "e10" c10Job 5)
        pendingAlarm := some (5 + 1000) } ∧
    (initState "e10" c10Job 5).exportType = "weird" ∧
    (∀ rs, chunkRows [c10Row] (initState "e10" c10Job 5) = some rs →
      ∀ r ∈ rs, ∃ row ∈ [c10Row], row.user_id = "" ∧ row.deleted_at = none ∧
        DBFile.toFileRecord row = r) :=
  C10_amended_unrecognized_kind_full_shape "weird" none c10World c10Job "e10" 5 [c10Row]
    (by decide) rfl rfl rfl
